import Mathlib

/-!
Verification of the tgt-warmup KuCoin streaming market-data client.

Shallow embedding of the Rust sources:
  * `src/kucoin/api.rs`    — credentials, message codec, wire-message builders;
  * `src/kucoin/book.rs`   — the fixed-depth order-book decoder;
  * `src/kucoin/client.rs` — the heartbeat (ping) loop and the demux (recv) loop;
  * `src/kucoin.rs`        — the legacy monolithic client (its ping loop).

JSON values are modelled by an inductive `Json` type; serde_json's text
parsing is external library code, so functions that take a wire frame take
the parse outcome (`Option Json`, `none` being a syntax error) instead of
the raw text.  Rust panics (`expect`, `panic!`, out-of-bounds indexing) are
modelled by an explicit "panics" outcome carrying the panic message.
`f64` prices are modelled as exact rationals: every price string appearing
in the verified properties is an exactly representable decimal, and the
decoder's structure (ordering, truncation, padding) does not depend on
floating-point rounding.  `u64`/`i64` are modelled by `Nat`/`Int`; the
heartbeat counter's wrap at `2 ^ 64` is out of scope per the data model
("wraps only at the numeric type's range boundary").
-/

namespace TgtWarmup

/-- Model of `serde_json::Value`.  Numbers are carried as integers: the only
numeric accessor the client uses is `as_i64`, and every number appearing in
the modelled frames is integral. -/
inductive Json where
  | null : Json
  | bool (b : Bool) : Json
  | num (n : Int) : Json
  | str (s : String) : Json
  | arr (xs : List Json) : Json
  | obj (fields : List (String × Json)) : Json

/-- `Value::get` with a string key: `Some` field value on objects holding the
key, `None` otherwise (also on non-objects). -/
def Json.get (j : Json) (key : String) : Option Json :=
  match j with
  | Json.obj fields => (fields.find? (fun f => f.1 = key)).map (fun f => f.2)
  | _ => none

/-- `Value::get` with a numeric index: `Some` element on arrays, `None`
otherwise. -/
def Json.getIdx (j : Json) (i : Nat) : Option Json :=
  match j with
  | Json.arr xs => xs.get? i
  | _ => none

/-- Square-bracket indexing `v["key"]`: like `get` but returns `Null` when
the key is missing or the value is not an object. -/
def Json.index (j : Json) (key : String) : Json :=
  (Json.get j key).getD Json.null

/-- `Value::as_str`. -/
def Json.as_str (j : Json) : Option String :=
  match j with
  | Json.str s => some s
  | _ => none

/-- `Value::as_i64`: the number when it fits in a signed 64-bit integer. -/
def Json.as_i64 (j : Json) : Option Int :=
  match j with
  | Json.num n => if -(2 ^ 63) ≤ n ∧ n < 2 ^ 63 then some n else none
  | _ => none

/-! ## `src/kucoin/api.rs` -/

/-- `Credentials` (api.rs).  Durations are carried in milliseconds. -/
structure Credentials where
  wss_domain : String
  token : String
  ping_interval : Nat
  ping_timeout : Nat

/-- `Credentials::connection_string`:
`format!("{}?token={}", self.wss_domain, self.token)`. -/
def Credentials.connection_string (c : Credentials) : String :=
  c.wss_domain ++ "?token=" ++ c.token

set_option linter.dupNamespace false in
/-- The `Message` enum (api.rs). -/
inductive Message where
  | Welcome : Message
  | Pong (id : String) : Message
  | Ack (id : String) : Message
  | Message (v : Json) : Message

/-- Outcome of `Message::from_string`: a value, a `serde_json::Error`
(the `Err` branch of the returned `Result`), or a Rust panic with its
message. -/
inductive FromStringResult where
  | ok (m : Message) : FromStringResult
  | err : FromStringResult
  | panics (reason : String) : FromStringResult

/-- Whether a `from_string` outcome is the `Err` branch of the `Result`. -/
def FromStringResult.isErr : FromStringResult → Bool
  | FromStringResult.err => true
  | _ => false

/-- The body of `Message::from_string` after `serde_json::from_str`
succeeded, translated clause by clause:

* `msg.get("type").expect("Cannot get message type")` — panic when absent;
* `.as_str().expect("Message type is not string")` — panic when not a string;
* `let id = msg["id"].as_str().ok_or("Cannot get message id")` — a `Result`,
  forced by `id.unwrap()` (a panic) only in the `"ack"`/`"pong"` arms; the
  source binds this pure lookup once before the dispatch, here it is written
  inline in the two arms that force it, which is semantically identical;
* unknown type values hit `panic!("Message type {other_type} not expected …")`. -/
def Message.fromJson (msg : Json) : FromStringResult :=
  match Json.get msg "type" with
  | none => FromStringResult.panics "Cannot get message type"
  | some t =>
    match Json.as_str t with
    | none => FromStringResult.panics "Message type is not string"
    | some msg_type =>
      match msg_type with
      | "welcome" => FromStringResult.ok Message.Welcome
      | "ack" =>
        match Json.as_str (Json.index msg "id") with
        | some s => FromStringResult.ok (Message.Ack s)
        | none => FromStringResult.panics "Cannot get message id"
      | "pong" =>
        match Json.as_str (Json.index msg "id") with
        | some s => FromStringResult.ok (Message.Pong s)
        | none => FromStringResult.panics "Cannot get message id"
      | "message" => FromStringResult.ok (Message.Message msg)
      | other => FromStringResult.panics ("Message type " ++ other ++ " not expected")

/-- `Message::from_string`, with serde_json's text parse represented by its
outcome: `none` is a JSON syntax error, which is the only input the `?`
operator turns into the `Err` branch of the `Result`. -/
def Message.from_string (parsed : Option Json) : FromStringResult :=
  match parsed with
  | none => FromStringResult.err
  | some msg => Message.fromJson msg

/-- The canonical level-2 depth-5 topic string for a symbol. -/
def level2_topic (symbol : String) : String :=
  "/contractMarket/level2Depth5:" ++ symbol

/-- `level2_subscription_string` (api.rs): the subscribe frame and the
canonical topic string to register.  The wire text is modelled by the JSON
value it encodes. -/
def level2_subscription_string (symbol : String) : Json × String :=
  let topic := level2_topic symbol
  (Json.obj [("id", Json.num 1), ("type", Json.str "subscribe"),
             ("topic", Json.str topic), ("privateChannel", Json.bool false),
             ("response", Json.bool true)],
   topic)

/-- `ping_string` (api.rs): the ping frame carrying `id`, modelled by the
JSON value it encodes. -/
def ping_string (id : String) : Json :=
  Json.obj [("id", Json.str id), ("type", Json.str "ping")]

/-! ## `src/kucoin/book.rs` -/

/-- The numeric value of a non-empty all-digit character list, `none`
otherwise. -/
def digitsVal (cs : List Char) : Option Nat :=
  match cs with
  | [] => none
  | _ => cs.foldlM (fun acc c => if c.isDigit then some (acc * 10 + (c.toNat - 48)) else none) 0

/-- Splits a character list at its first `'.'`; the second component is
`none` when there is no dot. -/
def splitDot : List Char → (List Char × Option (List Char))
  | [] => ([], none)
  | c :: cs =>
    if c = '.' then ([], some cs)
    else
      let r := splitDot cs
      (c :: r.1, r.2)

/-- The value of an unsigned decimal literal `digits (. digits)?`. -/
def parseUnsigned (cs : List Char) : Option Rat :=
  match splitDot cs with
  | (ip, none) => (digitsVal ip).map (fun n => (n : Rat))
  | (ip, some fp) =>
    match digitsVal ip, digitsVal fp with
    | some n, some f => some ((n : Rat) + (f : Rat) / (10 : Rat) ^ fp.length)
    | _, _ => none

/-- Model of `str::parse::<f64>` restricted to plain decimal literals
(`[+-]? digits (. digits)?`), with the value carried as an exact rational.
Every price in the verified properties is such a literal and is exactly
representable in binary64, and the decoder's structural behaviour does not
depend on rounding. -/
def parse_f64 (s : String) : Option Rat :=
  match s.toList with
  | '-' :: rest => (parseUnsigned rest).map (fun q => -q)
  | '+' :: rest => parseUnsigned rest
  | cs => parseUnsigned cs

/-- One `[price-as-string, size-as-integer]` entry of an asks/bids array,
from the closure inside `MarketBook::get_asks_bids`:
`x.get(0).expect("Cannot get price from ask").as_str().expect("Price is not
a string")`, `price.parse::<f64>().expect("Price is not a float")`,
`x.get(1).expect("Cannot get size from ask").as_i64().expect("Size is not an
integer")`.  `none` models any of these panics. -/
def parseEntry (x : Json) : Option (Rat × Int) := do
  let p ← Json.getIdx x 0
  let ps ← Json.as_str p
  let price ← parse_f64 ps
  let sz ← Json.getIdx x 1
  let size ← Json.as_i64 sz
  pure (price, size)

/-- The Rust array store `res[i] = x` on a `[(f64, i64); 5]`: in-bounds it
replaces slot `i`, out of bounds it panics (`none`). -/
def setIdx (res : List (Rat × Int)) (i : Nat) (e : Rat × Int) : Option (List (Rat × Int)) :=
  if i < res.length then some (res.set i e) else none

/-- The `for (i, x) in data.enumerate { res[i] = x }` loop of
`get_asks_bids`: the lazy `map` means each entry is parsed just before its
store, so a malformed entry panics before any later out-of-bounds store and
conversely. -/
def get_asks_bids_loop : List Json → Nat → List (Rat × Int) → Option (List (Rat × Int))
  | [], _, res => some res
  | x :: xs, i, res =>
    match parseEntry x with
    | none => none
    | some e =>
      match setIdx res i e with
      | none => none
      | some res2 => get_asks_bids_loop xs (i + 1) res2

/-- `MarketBook::get_asks_bids`: `data.as_array().expect("Data is not an
array")` (panic on non-arrays), then the enumerate/store loop over
`res = [(0.0, 0); 5]`. -/
def get_asks_bids (data : Json) : Option (List (Rat × Int)) :=
  match data with
  | Json.arr xs => get_asks_bids_loop xs 0 (List.replicate 5 ((0 : Rat), (0 : Int)))
  | _ => none

/-- Plain in-order parse of a side's entries: the order-preserving
specification the loop-based decoder is compared against. -/
def parseEntries : List Json → Option (List (Rat × Int))
  | [] => some []
  | x :: xs =>
    match parseEntry x, parseEntries xs with
    | some e, some es => some (e :: es)
    | _, _ => none

/-- `MarketBook` (book.rs): five levels per side. -/
structure MarketBook where
  asks : List (Rat × Int)
  bids : List (Rat × Int)
deriving DecidableEq

/-- Outcome of `MarketBook::new`: the book with its topic, a
`RecvError::KeyNotExists` (the `?` on `ok_or`), or a Rust panic. -/
inductive MBResult where
  | ok (b : MarketBook) (topic : String) : MBResult
  | err (key : String) : MBResult
  | panics (reason : String) : MBResult

/-- `MarketBook::new` (book.rs), translated clause by clause; the two
`get_asks_bids` calls run asks first, bids second. -/
def MarketBook.new (data : Json) : MBResult :=
  match Json.get data "topic" with
  | none => MBResult.err "key topic not exists"
  | some t =>
    match Json.as_str t with
    | none => MBResult.panics "value of key topic is not a string"
    | some topic =>
      match Json.get data "data" with
      | none => MBResult.err "key data not exists"
      | some d =>
        match Json.get d "asks" with
        | none => MBResult.err "key asks doesn't exists"
        | some asks =>
          match Json.get d "bids" with
          | none => MBResult.err "key bids doesn't exists"
          | some bids =>
            match get_asks_bids asks with
            | none => MBResult.panics "Data is not an array"
            | some a =>
              match get_asks_bids bids with
              | none => MBResult.panics "Data is not an array"
              | some b => MBResult.ok (MarketBook.mk a b) topic

/-! ## `src/kucoin/client.rs` — heartbeat (ping) loop -/

/-- `duration_substract` (client.rs): saturating duration difference. -/
def duration_substract (a b : Nat) : Nat :=
  if a ≤ b then 0 else a - b

/-- What `pong_recv.recv_timeout(…)` can yield inside one heartbeat cycle:
a pong id forwarded by the demux loop, a timeout, or a disconnected channel
(the demux side dropped).  Each event is paired with the time elapsed since
`send_time` when it is observed. -/
inductive PongEvent where
  | pong (id : String) : PongEvent
  | timeout : PongEvent
  | disconnected : PongEvent

/-- Outcome of one heartbeat cycle's inner wait loop over a finite event
trace. -/
inductive CycleOutcome where
  /-- `return ()`: the ping thread exits (only on a disconnected channel). -/
  | exited : CycleOutcome
  /-- The matching pong arrived: the loop sleeps `sleep` ms and starts the
  next cycle with `nextId`. -/
  | finished (sleep : Nat) (nextId : Nat) : CycleOutcome
  /-- The trace is exhausted and the loop is still inside the wait. -/
  | waiting : CycleOutcome

/-- The inner wait loop of `Session::spawn_ping_loop` for the cycle whose
counter is `id`, processing the events delivered to `pong_recv` in order:
`Disconnected → return`, `Timeout → ()` (re-enter the wait), a pong equal
(as a string) to `id.to_string()` → sleep
`duration_substract(ping_interval, send_time.elapsed())`, `break`, then
`id += 1`; any other pong re-enters the wait. -/
def pingCycle (id : Nat) (ping_interval : Nat) : List (PongEvent × Nat) → CycleOutcome
  | [] => CycleOutcome.waiting
  | (e, elapsed) :: es =>
    match e with
    | PongEvent.disconnected => CycleOutcome.exited
    | PongEvent.timeout => pingCycle id ping_interval es
    | PongEvent.pong id_recv =>
      if id_recv = toString id then
        CycleOutcome.finished (duration_substract ping_interval elapsed) (id + 1)
      else pingCycle id ping_interval es

/-- An event that makes the cycle's wait loop stop (match or channel
disconnect); everything else re-enters the wait. -/
def stopsCycle (id : Nat) (e : PongEvent) : Bool :=
  match e with
  | PongEvent.disconnected => true
  | PongEvent.timeout => false
  | PongEvent.pong id_recv => id_recv == toString id

/-- The heartbeat counter across completed cycles: `let mut id: u64 = 0`
and `id += 1` once per completed cycle.  The `u64` wrap at `2 ^ 64` is out
of scope per the data model. -/
def pingLoopId : Nat → Nat
  | 0 => 0
  | n + 1 => pingLoopId n + 1

/-- The wire frame sent at the start of cycle `n`:
`ping_string(id.to_string())`. -/
def spawn_ping_msg (n : Nat) : Json :=
  ping_string (toString (pingLoopId n))

/-! ## `src/kucoin/client.rs` — demux (recv) loop -/

/-- `RecvError` (error.rs). -/
inductive RecvError where
  | KeyNotExists (key : String) : RecvError
  | ParseError : RecvError
  | NetworkError : RecvError

/-- One iteration's input to the demux loop: what `session.recv()`
returned. -/
inductive RecvInput where
  | err (e : RecvError) : RecvInput
  | msg (m : Message) : RecvInput

/-- The observable effect of a demux-loop iteration that continues
looping. -/
inductive RecvEffect where
  /-- `println!("{:?}", msg)` on an `Err`: the error is logged only. -/
  | logged : RecvEffect
  /-- A pong id handed to the heartbeat loop's side channel. -/
  | pongForwarded (id : String) : RecvEffect
  /-- An ack, discarded. -/
  | ackDropped : RecvEffect
  /-- Exactly one decoded book sent on the registered channel. -/
  | delivered (chan : Nat) (b : MarketBook) : RecvEffect

/-- Result of one demux-loop iteration: continue with an effect, or panic
(killing the demux thread).  No constructor closes subscriber channels:
the registry, which owns the senders, is held by the `Session` itself and
outlives the thread. -/
inductive RecvStepResult where
  | continues (eff : RecvEffect) : RecvStepResult
  | panics (reason : String) : RecvStepResult

/-- The subscription registry: topic string to delivery channel
(channels named by numbers). -/
def lookupTopic (reg : List (String × Nat)) (topic : String) : Option Nat :=
  (reg.find? (fun p => p.1 = topic)).map (fun p => p.2)

/-- `Session::subscribe_level2`'s registry update:
`self.data.lock().unwrap().insert(topic, send)` with the topic from
`level2_subscription_string`. -/
def subscribe_level2 (reg : List (String × Nat)) (symbol : String) (chan : Nat) :
    List (String × Nat) :=
  ((level2_subscription_string symbol).2, chan) :: reg

/-- One iteration of `Session::spawn_recv_loop`, translated arm by arm:
`Err(msg) → println!` and loop again; `Ok(Pong(id)) → pong_send.send(id)`;
`Ok(Ack(_)) → ()`; `Ok(Message(msg))` decodes the book
(`.expect("Cannot parse msg")` panics on any non-`ok` outcome), looks the
topic up (`.expect("Topic has no channel …")` panics when absent) and sends
the book on the registered channel; `Ok(other)` (a late `Welcome`) panics. -/
def recvStep (reg : List (String × Nat)) (input : RecvInput) : RecvStepResult :=
  match input with
  | RecvInput.err _ => RecvStepResult.continues RecvEffect.logged
  | RecvInput.msg (Message.Pong id) => RecvStepResult.continues (RecvEffect.pongForwarded id)
  | RecvInput.msg (Message.Ack _) => RecvStepResult.continues RecvEffect.ackDropped
  | RecvInput.msg (Message.Message m) =>
    match MarketBook.new m with
    | MBResult.ok b topic =>
      match lookupTopic reg topic with
      | some chan => RecvStepResult.continues (RecvEffect.delivered chan b)
      | none => RecvStepResult.panics ("Topic has no channel " ++ topic)
    | _ => RecvStepResult.panics "Cannot parse msg"
  | RecvInput.msg Message.Welcome => RecvStepResult.panics "Received unexpected Welcome"

/-! ## `src/kucoin.rs` — the legacy monolithic client -/

/-- The ping frame of `WebSocketSession::ping_loop` (kucoin.rs): built once
before the loop as `json!({"id": 0, "type": "ping"}).to_string()` — a
numeric id, not a string. -/
def legacy_ping_data : Json :=
  Json.obj [("id", Json.num 0), ("type", Json.str "ping")]

/-- The frame the legacy ping loop sends at iteration `n`: the same
prebuilt text every time. -/
def legacy_ping_msg (_n : Nat) : Json :=
  legacy_ping_data

end TgtWarmup

namespace TgtWarmup

/-! ## Theorems about the codec (claims C3, C9, C10) -/

/-- C9: for every `Credentials` record with endpoint `E` and token `T`,
`connection_string()` returns exactly `"{E}?token={T}"`. -/
theorem connection_string_exact (E T : String) (i t : Nat) :
    (Credentials.mk E T i t).connection_string = E ++ "?token=" ++ T := rfl

/-- C3 (code behaviour at the failing inputs): on valid JSON whose `type`
field is absent, is not a string, or holds an unknown value,
`Message::from_string` panics rather than returning a `DecodeFailure`-class
error; the `Err` branch of its `Result` is reachable only from a JSON syntax
failure. -/
theorem from_string_panics_on_bad_type :
    Message.from_string (some (Json.obj [])) =
      FromStringResult.panics "Cannot get message type" ∧
    Message.from_string (some (Json.obj [("type", Json.num 3)])) =
      FromStringResult.panics "Message type is not string" ∧
    Message.from_string (some (Json.obj [("type", Json.str "bogus")])) =
      FromStringResult.panics "Message type bogus not expected" ∧
    (∀ j : Json, (Message.from_string (some j)).isErr = false) ∧
    Message.from_string none = FromStringResult.err := by
  refine ⟨rfl, rfl, rfl, ?_, rfl⟩
  intro j
  rw [show Message.from_string (some j) = Message.fromJson j from rfl]
  unfold Message.fromJson
  split <;>
    first
      | rfl
      | (split <;>
          first
            | rfl
            | (split <;>
                first
                  | rfl
                  | (split <;> rfl)))

/-- C10: for every valid-JSON frame whose `type` is `"ack"` or `"pong"` but
whose `id` field is absent or not a string, `Message::from_string` does not
return an `Err` — it panics (from `id.unwrap()`), so the `Result` error path
covers only JSON syntax failures. -/
theorem from_string_panics_on_missing_id (msg : Json) (t : String)
    (htype : Json.get msg "type" = some (Json.str t))
    (hkind : t = "ack" ∨ t = "pong")
    (hid : Json.as_str (Json.index msg "id") = none) :
    Message.from_string (some msg) = FromStringResult.panics "Cannot get message id" := by
  rw [show Message.from_string (some msg) = Message.fromJson msg from rfl]
  unfold Message.fromJson
  rw [htype]
  rcases hkind with h | h <;> subst h <;> simp [hid] <;> rfl

/-- Witness for C10 at the concrete frame `{"type":"ack"}`. -/
theorem from_string_panics_on_missing_id_witness :
    Message.from_string (some (Json.obj [("type", Json.str "ack")])) =
      FromStringResult.panics "Cannot get message id" :=
  from_string_panics_on_missing_id (Json.obj [("type", Json.str "ack")]) "ack"
    rfl (Or.inl rfl) rfl

/-! ## Order-book decoder lemmas (claims C4, C8) -/

/-- Taking one past a just-written slot splits off exactly the written
element. -/
theorem take_succ_set {α : Type} (l : List α) (i : Nat) (e : α) (h : i < l.length) :
    (l.set i e).take (i + 1) = l.take i ++ [e] := by
  induction l generalizing i with
  | nil => simp at h
  | cons a l ih =>
    cases i with
    | zero => simp
    | succ i =>
      simp only [List.set, List.take, List.cons_append, List.cons.injEq, true_and]
      exact ih i (by simpa using h)

/-- Writing strictly below the drop point leaves the dropped suffix
unchanged. -/
theorem drop_set_lt {α : Type} (l : List α) (i j : Nat) (e : α) (h : i < j) :
    (l.set i e).drop j = l.drop j := by
  induction l generalizing i j with
  | nil => simp
  | cons a l ih =>
    cases i with
    | zero => cases j with
      | zero => omega
      | succ j => simp
    | succ i => cases j with
      | zero => omega
      | succ j =>
        simp only [List.set, List.drop]
        exact ih i j (by omega)

/-- An in-order parse preserves the entry count. -/
theorem parseEntries_length : ∀ {xs : List Json} {es : List (Rat × Int)},
    parseEntries xs = some es → es.length = xs.length := by
  intro xs
  induction xs with
  | nil =>
    intro es h
    simp only [parseEntries, Option.some.injEq] at h
    subst h; rfl
  | cons x xs ih =>
    intro es h
    simp only [parseEntries] at h
    split at h
    · rename_i e es2 hx hxs
      cases h
      simp [ih hxs]
    · exact Option.noConfusion h

/-- The enumerate/store loop on parseable input writes the parsed entries
in order starting at slot `i`, leaving the rest of the accumulator
untouched. -/
theorem get_asks_bids_loop_eq :
    ∀ (xs : List Json) (i : Nat) (acc : List (Rat × Int)) (es : List (Rat × Int)),
      i + xs.length ≤ acc.length → parseEntries xs = some es →
      get_asks_bids_loop xs i acc = some (acc.take i ++ es ++ acc.drop (i + es.length)) := by
  intro xs
  induction xs with
  | nil =>
    intro i acc es hle hes
    simp only [parseEntries, Option.some.injEq] at hes
    subst hes
    simp [get_asks_bids_loop]
  | cons x xs ih =>
    intro i acc es hle hes
    simp only [parseEntries] at hes
    split at hes
    · rename_i e es2 hx hxs
      cases hes
      have hi : i < acc.length := by
        simp only [List.length_cons] at hle; omega
      have hstep : get_asks_bids_loop (x :: xs) i acc =
          get_asks_bids_loop xs (i + 1) (acc.set i e) := by
        simp only [get_asks_bids_loop, hx, setIdx, if_pos hi]
      rw [hstep, ih (i + 1) (acc.set i e) es2
        (by simp only [List.length_set, List.length_cons] at hle ⊢; omega) hxs]
      rw [take_succ_set acc i e hi, drop_set_lt acc i (i + 1 + es2.length) e (by omega)]
      rw [show i + 1 + es2.length = i + (e :: es2).length from by simp; omega]
      simp
    · exact Option.noConfusion hes

/-- C8: a side array of at most 5 parseable `[price-string, integer-size]`
entries decodes to the entries parsed in the given order (no re-sorting)
followed by `(0.0, 0)` sentinels in every trailing slot. -/
theorem get_asks_bids_pads (xs : List Json) (es : List (Rat × Int))
    (hlen : xs.length ≤ 5) (hp : parseEntries xs = some es) :
    get_asks_bids (Json.arr xs) =
      some (es ++ List.replicate (5 - xs.length) ((0 : Rat), (0 : Int))) := by
  have h := get_asks_bids_loop_eq xs 0 (List.replicate 5 ((0 : Rat), (0 : Int))) es
    (by simpa using hlen) hp
  rw [show get_asks_bids (Json.arr xs) =
        get_asks_bids_loop xs 0 (List.replicate 5 ((0 : Rat), (0 : Int))) from rfl, h]
  rw [parseEntries_length hp]
  simp only [List.take_zero, List.nil_append, Nat.zero_add, List.drop_replicate]

/-- Witness for C8: two ask levels `[["100.5","10"],["101","5"]]` decode to
`(100.5, 10)` first, `(101, 5)` second, and exactly three trailing
`(0.0, 0)` sentinels. -/
theorem get_asks_bids_pads_witness :
    get_asks_bids (Json.arr
        [Json.arr [Json.str "100.5", Json.num 10],
         Json.arr [Json.str "101", Json.num 5]]) =
      some [((201 : Rat) / 2, (10 : Int)), ((101 : Rat), (5 : Int)),
            (0, 0), (0, 0), (0, 0)] := by
  have h := get_asks_bids_pads
    [Json.arr [Json.str "100.5", Json.num 10], Json.arr [Json.str "101", Json.num 5]]
    [((201 : Rat) / 2, (10 : Int)), ((101 : Rat), (5 : Int))]
    (by decide)
    (by simp [parseEntries, parseEntry, parse_f64, parseUnsigned, splitDot, digitsVal,
          Json.getIdx, Json.as_str, Json.as_i64]
        norm_num)
  simpa using h

/-- C4 as stated is false: six well-formed entries do not decode to the
first five — the store loop indexes slot 5 of a five-slot array and
panics. -/
theorem get_asks_bids_no_truncation :
    get_asks_bids (Json.arr (List.replicate 6 (Json.arr [Json.str "1", Json.num 1]))) = none ∧
    get_asks_bids (Json.arr (List.replicate 6 (Json.arr [Json.str "1", Json.num 1]))) ≠
      some (List.replicate 5 ((1 : Rat), (1 : Int))) := by
  refine ⟨by decide, ?_⟩
  intro h
  rw [show get_asks_bids (Json.arr (List.replicate 6 (Json.arr [Json.str "1", Json.num 1]))) =
        none from by decide] at h
  exact Option.noConfusion h

/-- The enumerate/store loop fails (out-of-bounds panic) whenever the
parseable entries outrun the accumulator. -/
theorem get_asks_bids_loop_overflow :
    ∀ (xs : List Json) (i : Nat) (acc : List (Rat × Int)),
      xs ≠ [] → acc.length < i + xs.length →
      (∀ x ∈ xs, (parseEntry x).isSome) →
      get_asks_bids_loop xs i acc = none := by
  intro xs
  induction xs with
  | nil => intro i acc hne; exact absurd rfl hne
  | cons x xs ih =>
    intro i acc _ hlt hwf
    have hx : (parseEntry x).isSome := hwf x (List.mem_cons_self x xs)
    rcases hxe : parseEntry x with _ | e
    · rw [hxe] at hx; exact Bool.noConfusion hx
    by_cases hi : i < acc.length
    · have hstep : get_asks_bids_loop (x :: xs) i acc =
          get_asks_bids_loop xs (i + 1) (acc.set i e) := by
        simp only [get_asks_bids_loop, hxe, setIdx, if_pos hi]
      rw [hstep]
      have hne2 : xs ≠ [] := by
        intro h; subst h
        simp only [List.length_cons, List.length_nil] at hlt; omega
      exact ih (i + 1) (acc.set i e) hne2
        (by simp only [List.length_set, List.length_cons] at hlt ⊢; omega)
        (fun y hy => hwf y (List.mem_cons_of_mem x hy))
    · simp only [get_asks_bids_loop, hxe, setIdx, if_neg hi]

/-- C4 amended: a side array with more than 5 well-formed entries makes the
decoder panic (array index out of bounds) instead of truncating to the
first five. -/
theorem get_asks_bids_overflow_panics (xs : List Json)
    (h6 : 5 < xs.length) (hwf : ∀ x ∈ xs, (parseEntry x).isSome) :
    get_asks_bids (Json.arr xs) = none := by
  rw [show get_asks_bids (Json.arr xs) =
        get_asks_bids_loop xs 0 (List.replicate 5 ((0 : Rat), (0 : Int))) from rfl]
  exact get_asks_bids_loop_overflow xs 0 (List.replicate 5 ((0 : Rat), (0 : Int)))
    (by intro h; subst h; simp at h6) (by simpa using h6) hwf

/-- Witness for the amended C4 at six `["1", 1]` entries. -/
theorem get_asks_bids_overflow_panics_witness :
    get_asks_bids (Json.arr (List.replicate 6 (Json.arr [Json.str "2.5", Json.num 7]))) = none :=
  get_asks_bids_overflow_panics (List.replicate 6 (Json.arr [Json.str "2.5", Json.num 7]))
    (by decide) (by decide)

/-! ## Heartbeat-loop theorems (claims C1, C6, C7) -/

/-- C1 (code behaviour at the failing input): the ping loop's timeout arm is
`Err(RecvTimeoutError::Timeout) => ()`, which re-enters the wait; over any
finite trace of timeouts and non-matching pongs on a live channel the
heartbeat cycle is still inside its wait loop afterwards — it neither exits
the thread nor surfaces any failure, contradicting
timeout-terminates-the-session. -/
theorem ping_timeout_reenters_wait (id interval : Nat) (es : List (PongEvent × Nat))
    (h : ∀ p ∈ es, stopsCycle id p.1 = false) :
    pingCycle id interval es = CycleOutcome.waiting ∧
    (∀ t rest, pingCycle id interval ((PongEvent.timeout, t) :: rest) =
      pingCycle id interval rest) := by
  refine ⟨?_, fun t rest => rfl⟩
  induction es with
  | nil => rfl
  | cons p es ih =>
    have hp := h p (List.mem_cons_self p es)
    rcases p with ⟨e, t⟩
    cases e with
    | pong s =>
      have hs : s ≠ toString id := by
        simp only [stopsCycle] at hp
        exact ne_of_beq_false hp
      simp only [pingCycle, if_neg hs]
      exact ih (fun q hq => h q (List.mem_cons_of_mem _ hq))
    | timeout =>
      simp only [pingCycle]
      exact ih (fun q hq => h q (List.mem_cons_of_mem _ hq))
    | disconnected =>
      simp only [stopsCycle] at hp
      exact Bool.noConfusion hp

/-- Witness for C1: cycle id 0, two timeouts and a stale pong `"7"` leave
the loop still waiting. -/
theorem ping_timeout_reenters_wait_witness :
    pingCycle 0 1000 [(PongEvent.timeout, 500), (PongEvent.pong "7", 600),
      (PongEvent.timeout, 700)] = CycleOutcome.waiting :=
  (ping_timeout_reenters_wait 0 1000
    [(PongEvent.timeout, 500), (PongEvent.pong "7", 600), (PongEvent.timeout, 700)]
    (by decide)).1

/-- C6: inside one heartbeat cycle for counter `id`, a pong whose id differs
from `id.to_string()` (comparison by string value) is ignored and the wait
continues; the matching pong finishes the cycle with a sleep of
`ping_interval` minus the elapsed time, clamped to zero, and the next cycle
uses `id + 1`. -/
theorem ping_cycle_match_semantics (id interval t elapsed : Nat) (s : String)
    (hs : s ≠ toString id) (es : List (PongEvent × Nat)) :
    pingCycle id interval ((PongEvent.pong s, t) :: es) = pingCycle id interval es ∧
    pingCycle id interval ((PongEvent.pong (toString id), elapsed) :: es) =
      CycleOutcome.finished (duration_substract interval elapsed) (id + 1) ∧
    duration_substract interval elapsed = interval - elapsed ∧
    (interval ≤ elapsed → duration_substract interval elapsed = 0) := by
  refine ⟨by simp only [pingCycle, if_neg hs], by simp [pingCycle], ?_, ?_⟩
  · unfold duration_substract
    split <;> omega
  · intro hle
    unfold duration_substract
    rw [if_pos hle]

/-- Witness for C6 at cycle id 3, stale pong `"2"`, interval 1000,
elapsed 400. -/
theorem ping_cycle_match_semantics_witness :
    pingCycle 3 1000 [(PongEvent.pong "2", 100)] = pingCycle 3 1000 [] ∧
    pingCycle 3 1000 [(PongEvent.pong (toString 3), 400)] =
      CycleOutcome.finished (duration_substract 1000 400) (3 + 1) ∧
    duration_substract 1000 400 = 1000 - 400 ∧
    (1000 ≤ 400 → duration_substract 1000 400 = 0) :=
  ping_cycle_match_semantics 3 1000 100 400 "2" (by decide) []

/-- C7 as stated is false for the legacy `WebSocketSession::ping_loop`
(kucoin.rs), one of its cited sources: consecutive pings carry the identical
prebuilt frame whose id is the number `0` — the id neither increases nor is
rendered as a decimal string. -/
theorem legacy_ping_id_constant :
    legacy_ping_msg 1 = legacy_ping_msg 0 ∧
    Json.get (legacy_ping_msg 0) "id" = some (Json.num 0) ∧
    Json.get (legacy_ping_msg 1) "id" = some (Json.num 0) :=
  ⟨rfl, rfl, rfl⟩

/-- C7 amended: in `Session::spawn_ping_loop` (client.rs) the heartbeat
counter starts at 0 and increments once per completed cycle, so ids of later
pings are strictly greater, never reused, and each wire frame carries the
counter's decimal string. -/
theorem spawn_ping_id_strictly_increasing (m n : Nat) (h : m < n) :
    pingLoopId m < pingLoopId n ∧
    (∀ a b : Nat, pingLoopId a = pingLoopId b → a = b) ∧
    Json.get (spawn_ping_msg n) "id" = some (Json.str (toString (pingLoopId n))) := by
  have hid : ∀ k, pingLoopId k = k := by
    intro k
    induction k with
    | zero => rfl
    | succ k ih => simp [pingLoopId, ih]
  refine ⟨?_, ?_, rfl⟩
  · rw [hid, hid]; exact h
  · intro a b hab
    rw [hid, hid] at hab
    exact hab

/-- Witness for the amended C7 at cycles 0 and 1. -/
theorem spawn_ping_id_strictly_increasing_witness :
    pingLoopId 0 < pingLoopId 1 ∧
    (∀ a b : Nat, pingLoopId a = pingLoopId b → a = b) ∧
    Json.get (spawn_ping_msg 1) "id" = some (Json.str (toString (pingLoopId 1))) :=
  spawn_ping_id_strictly_increasing 0 1 (by decide)

/-! ## Demux-loop theorems (claims C2, C5) -/

/-- C2 (code behaviour): the demux loop's `Err(msg) => println!("{:?}", msg)`
arm logs any `RecvError` — transport, parse, or missing key — and continues
to the next iteration; it neither terminates the loop nor closes any
subscriber channel. -/
theorem recv_error_only_logged (reg : List (String × Nat)) (e : RecvError) :
    recvStep reg (RecvInput.err e) = RecvStepResult.continues RecvEffect.logged := rfl

/-- C5: a Data frame whose topic is registered is decoded once and delivered
exactly once on the registered channel; `subscribe_level2` registers exactly
the canonical topic inbound frames carry; a Data frame whose topic has no
registry entry panics the demux thread (`expect("Topic has no channel …")`)
— the registry and its senders, owned by the `Session`, are not closed by
that panic. -/
theorem demux_routing (reg : List (String × Nat)) (frame : Json) (b : MarketBook)
    (topic : String) (chan : Nat)
    (hnew : MarketBook.new frame = MBResult.ok b topic)
    (hreg : lookupTopic reg topic = some chan) :
    recvStep reg (RecvInput.msg (Message.Message frame)) =
      RecvStepResult.continues (RecvEffect.delivered chan b) ∧
    (∀ (reg2 : List (String × Nat)) (sym : String) (c : Nat),
      lookupTopic (subscribe_level2 reg2 sym c) (level2_topic sym) = some c) ∧
    (∀ (reg2 : List (String × Nat)) (frame2 : Json) (b2 : MarketBook) (topic2 : String),
      MarketBook.new frame2 = MBResult.ok b2 topic2 →
      lookupTopic reg2 topic2 = none →
      recvStep reg2 (RecvInput.msg (Message.Message frame2)) =
        RecvStepResult.panics ("Topic has no channel " ++ topic2)) := by
  refine ⟨?_, ?_, ?_⟩
  · simp only [recvStep, hnew, hreg]
  · intro reg2 sym c
    simp [lookupTopic, subscribe_level2, level2_subscription_string, List.find?]
  · intro reg2 frame2 b2 topic2 h1 h2
    simp only [recvStep, h1, h2]

/-- Witness for C5: with topic
`"/contractMarket/level2Depth5:ETHUSDTM"` registered on channel 0, the
empty-book Data frame for that topic is delivered exactly once on
channel 0. -/
theorem demux_routing_witness :
    recvStep [("/contractMarket/level2Depth5:ETHUSDTM", 0)]
        (RecvInput.msg (Message.Message (Json.obj
          [("topic", Json.str "/contractMarket/level2Depth5:ETHUSDTM"),
           ("data", Json.obj [("asks", Json.arr []), ("bids", Json.arr [])])]))) =
      RecvStepResult.continues (RecvEffect.delivered 0
        (MarketBook.mk (List.replicate 5 ((0 : Rat), (0 : Int)))
          (List.replicate 5 ((0 : Rat), (0 : Int))))) :=
  (demux_routing [("/contractMarket/level2Depth5:ETHUSDTM", 0)]
    (Json.obj [("topic", Json.str "/contractMarket/level2Depth5:ETHUSDTM"),
               ("data", Json.obj [("asks", Json.arr []), ("bids", Json.arr [])])])
    (MarketBook.mk (List.replicate 5 ((0 : Rat), (0 : Int)))
      (List.replicate 5 ((0 : Rat), (0 : Int))))
    "/contractMarket/level2Depth5:ETHUSDTM" 0 rfl rfl).1

end TgtWarmup
